import Mathlib

/-!
Verification of the collage compositing and interaction engine of the
YearOneBook repository (src/components/CollageCanvas.tsx and its host
component), shallowly embedded over exact rational arithmetic: JavaScript
floating-point numbers become `ℚ`, so every identity proved here holds
exactly where the source holds it up to floating-point rounding.
-/

/-- Model of a decoded bitmap: the renderer only ever reads its natural
pixel dimensions `img.width` and `img.height`. -/
structure ImageBitmap where
  width : ℚ
  height : ℚ
deriving DecidableEq

/-- Model of a `PhotoSlot` (src/types.ts): a circular photo placeholder
with unit-square coordinates relative to the content square, an optional
decoded image and the accumulated pan offset. -/
structure PhotoSlot where
  id : String
  label : String
  image : Option ImageBitmap
  x : ℚ
  y : ℚ
  radius : ℚ
  isCenter : Bool
  imageOffsetX : ℚ
  imageOffsetY : ℚ
deriving DecidableEq

/-- `scaleBase = Math.min(width, height)` (CollageCanvas.tsx line 36). -/
def scaleBase (width height : ℚ) : ℚ := min width height

/-- `contentSize = scaleBase` (line 40): side of the content square. -/
def contentSize (width height : ℚ) : ℚ := scaleBase width height

/-- `paddingX = (width - contentSize) / 2` (line 41). -/
def paddingX (width height : ℚ) : ℚ := (width - contentSize width height) / 2

/-- `paddingY = (height - contentSize) / 2` (line 42). -/
def paddingY (width height : ℚ) : ℚ := (height - contentSize width height) / 2

/-- The shared unit-space → pixel mapping, as the renderer applies it to
slot centers (lines 176-177): `cx = paddingX + slot.x * contentSize`,
`cy = paddingY + slot.y * contentSize`. -/
def unitToPixel (width height : ℚ) (u : ℚ × ℚ) : ℚ × ℚ :=
  (paddingX width height + u.1 * contentSize width height,
   paddingY width height + u.2 * contentSize width height)

/-- Its inverse, the mapping hit-testing inverts ("Pixels -> Subtract
Padding -> Divide by Content Size", source comment at line 344). -/
def pixelToUnit (width height : ℚ) (p : ℚ × ℚ) : ℚ × ℚ :=
  ((p.1 - paddingX width height) / contentSize width height,
   (p.2 - paddingY width height) / contentSize width height)

/-- The rectangle the renderer computes for aspect-fill drawing
(`drawWidth`, `drawHeight`, `offsetX`, `offsetY`, lines 210-222). -/
structure DrawRect where
  drawWidth : ℚ
  drawHeight : ℚ
  offsetX : ℚ
  offsetY : ℚ
deriving DecidableEq

/-- Aspect-fill placement (lines 206-222): `imgAspect = img.width / img.height`
is compared against `drawAspect = 1`; a wider-than-square image fills the
height `r * 2` and is centered horizontally, otherwise the image fills the
width `r * 2` and is centered vertically. The user pan offset is added
afterwards (lines 226-227) and is not part of this rectangle. -/
def aspectFill (imgWidth imgHeight r cx cy : ℚ) : DrawRect :=
  let imgAspect := imgWidth / imgHeight
  let drawAspect : ℚ := 1
  if imgAspect > drawAspect then
    let drawHeight := r * 2
    let drawWidth := drawHeight * imgAspect
    { drawWidth := drawWidth, drawHeight := drawHeight,
      offsetX := cx - drawWidth / 2, offsetY := cy - r }
  else
    let drawWidth := r * 2
    let drawHeight := drawWidth / imgAspect
    { drawWidth := drawWidth, drawHeight := drawHeight,
      offsetX := cx - r, offsetY := cy - drawHeight / 2 }

/-- `handleUpdateSlotOffset` (host component, src/unnamed/part_000 lines
106-117): adds a drag delta into the matching slot's accumulated pan
offset, leaving every other slot untouched. -/
def handleUpdateSlotOffset (slots : List PhotoSlot) (id : String) (dx dy : ℚ) :
    List PhotoSlot :=
  slots.map fun slot =>
    if slot.id = id then
      { slot with imageOffsetX := slot.imageOffsetX + dx,
                  imageOffsetY := slot.imageOffsetY + dy }
    else slot

/-- x-coordinate of `getRelativePos` (lines 312-324): the pointer position
as a fraction of the displayed canvas element's bounding rectangle. -/
def getRelativePosX (rectLeft rectWidth clientX : ℚ) : ℚ :=
  (clientX - rectLeft) / rectWidth

/-- Slot-branch x-delta of `handleMouseMove` (line 384):
`dxSlot = (dRelX * width) / scaleBase`. -/
def dxSlot (width height dRelX : ℚ) : ℚ :=
  dRelX * width / scaleBase width height

/-- Slot-branch y-delta of `handleMouseMove` (line 385):
`dySlot = (dRelY * height) / scaleBase`. -/
def dySlot (width height dRelY : ℚ) : ℚ :=
  dRelY * height / scaleBase width height

/-- One pointer-move step while dragging slot `id` (lines 380-387): the
computed deltas are committed through `onSlotOffsetChange`, which the host
wires to `handleUpdateSlotOffset`. -/
def moveDraggedSlot (width height : ℚ) (slots : List PhotoSlot) (id : String)
    (dRelX dRelY : ℚ) : List PhotoSlot :=
  handleUpdateSlotOffset slots id
    (dxSlot width height dRelX) (dySlot width height dRelY)

/-- The two kinds of surface an export could serialize: the canvas element
mounted on screen for the preview, or a freshly created off-screen one. -/
inductive SurfaceSource
  | previewCanvas
  | freshCanvas
deriving DecidableEq

/-- Backing-store resolution of the preview canvas element (lines 415-418:
the canvas is given width and height attributes equal to the full chosen
target resolution and only scaled down for display by CSS). -/
def previewBackingStore (width height : ℕ) : ℕ × ℕ := (width, height)

/-- What `download` produces: which surface it reads, the file name of the
offered download and the encoding. -/
structure DownloadAction where
  source : SurfaceSource
  filename : String
  mime : String
deriving DecidableEq

/-- `download` (lines 398-407): reads `canvasRef.current` — the same
canvas element the preview renders to — and serializes it via
`toDataURL('image/png', 1.0)` under a name embedding the two chosen
dimensions. -/
def download (width height : ℕ) : DownloadAction :=
  { source := SurfaceSource.previewCanvas,
    filename := "first-year-collage-" ++ toString width ++ "x"
      ++ toString height ++ ".png",
    mime := "image/png" }

/-- Drag target discriminated union (line 31). -/
inductive DragTarget
  | message
  | slot (id : String)
deriving DecidableEq

/-- Caption hit test of `handleMouseDown` (lines 331-341): a radial check
of radius `scaleBase * 0.15` around the caption anchor, in pixels. The
source compares `Math.sqrt(dx^2 + dy^2) < scaleBase * 0.15`; both sides
being nonnegative there, the embedding compares squares. -/
def captionHit (width height : ℚ) (messagePos pos : ℚ × ℚ) : Prop :=
  ((pos.1 - messagePos.1) * width) ^ 2 + ((pos.2 - messagePos.2) * height) ^ 2 <
    (scaleBase width height * (15 / 100)) ^ 2

instance (width height : ℚ) (messagePos pos : ℚ × ℚ) :
    Decidable (captionHit width height messagePos pos) := by
  unfold captionHit; infer_instance

/-- Slot scan of `handleMouseDown` (lines 348-360): iterate the slots in
array order; the first slot whose pixel distance from the pointer is below
its pixel radius (`dist < r`, squared here — valid since slot radii are
nonnegative) and which currently holds an image becomes the target. -/
def findSlotTarget (width height px py : ℚ) :
    List PhotoSlot → Option DragTarget
  | [] => none
  | slot :: rest =>
    let slotCx := paddingX width height + slot.x * contentSize width height
    let slotCy := paddingY width height + slot.y * contentSize width height
    let r := slot.radius * contentSize width height
    if (px - slotCx) ^ 2 + (py - slotCy) ^ 2 < r ^ 2 ∧ slot.image.isSome then
      some (DragTarget.slot slot.id)
    else
      findSlotTarget width height px py rest

/-- `handleMouseDown` (lines 326-361): the caption test runs first and
returns immediately on a hit; otherwise the pointer is converted to canvas
pixels (`pos.x * width`, `pos.y * height`) and the slots are scanned.
Returns the drag target, `none` when nothing is hit. -/
def handleMouseDown (width height : ℚ) (messagePos : ℚ × ℚ)
    (slots : List PhotoSlot) (pos : ℚ × ℚ) : Option DragTarget :=
  if captionHit width height messagePos pos then
    some DragTarget.message
  else
    findSlotTarget width height (pos.1 * width) (pos.2 * height) slots

/-- Interaction controller state (lines 30-31): `isDragging` plus the
current drag target. -/
structure ControllerState where
  isDragging : Bool
  dragTarget : Option DragTarget
deriving DecidableEq

/-- Effect of `handleMouseDown` on the controller state: a hit starts a
drag on the hit target; on no hit the handler falls through without
calling any state setter, leaving the state exactly as it was. -/
def mouseDownStep (width height : ℚ) (messagePos : ℚ × ℚ)
    (slots : List PhotoSlot) (pos : ℚ × ℚ) (st : ControllerState) :
    ControllerState :=
  match handleMouseDown width height messagePos slots pos with
  | some t => { isDragging := true, dragTarget := some t }
  | none => st

/-- JS `String.includes` on char lists: does `needle` occur as a
contiguous substring of the second argument? -/
def hasSub (needle : List Char) : List Char → Bool
  | [] => needle.isEmpty
  | c :: cs => needle.isPrefixOf (c :: cs) || hasSub needle cs

/-- JS `String.replace(pat, repl)` with string pattern — replaces the
first occurrence only — on char lists. -/
def replaceFirst (pat repl : List Char) : List Char → List Char
  | [] => if pat.isEmpty then repl else []
  | c :: cs =>
    if pat.isPrefixOf (c :: cs) then repl ++ (c :: cs).drop pat.length
    else c :: replaceFirst pat repl cs

/-- JS `parseInt` restricted to how the source uses it (line 260): parse
the leading base-10 digit run; `none` models the `NaN` result when the
string does not start with a digit. -/
def parseIntJS (s : String) : Option ℕ :=
  let ds := s.data.takeWhile Char.isDigit
  if ds.isEmpty then none
  else some (ds.foldl (fun acc c => acc * 10 + (c.toNat - 48)) 0)

/-- The fixed badge palette (line 261): blue, green, yellow, purple. -/
def badgePaletteColors : List String :=
  ["#bae6fd", "#bbf7d0", "#fde68a", "#ddd6fe"]

/-- Badge color rule for non-hero slots (lines 251-263): a label containing
"Day" is pink `#fbcfe8`; otherwise "Month " is stripped from the label, the
remainder parsed as a number `num`, and the color is
`colors[num % colors.length]`. `none` models the undefined color JS yields
for a label whose remainder does not parse. -/
def badgeColor (label : String) : Option String :=
  if hasSub "Day".data label.data then some "#fbcfe8"
  else
    let badgeText := String.mk (replaceFirst "Month ".data [] label.data)
    match parseIntJS badgeText with
    | some num => badgePaletteColors.get? (num % badgePaletteColors.length)
    | none => none

/-- JS `message.split(' ')` on char lists: the runs of characters between
space characters, with empty runs for leading, trailing or doubled spaces;
a split never yields an empty list. -/
def splitChars : List Char → List (List Char)
  | [] => [[]]
  | c :: cs =>
    if c = ' ' then [] :: splitChars cs
    else
      match splitChars cs with
      | [] => [[c]]
      | g :: gs => (c :: g) :: gs

/-- `const words = message.split(' ')` (line 134), as strings. -/
def splitWords (message : String) : List String :=
  (splitChars message.data).map String.mk

/-- The wrapping loop of the multi-line branch (lines 144-155): accumulate
words into `line` (each word followed by a space); once adding the next
word would exceed `maxWidth` — and at least one word is already placed,
the `n > 0` guard — push `line` and start a new one from that word; the
final `line` is pushed after the loop. `measure` abstracts the
font-dependent `ctx.measureText(s).width`. -/
def wrapLoop (measure : String → ℚ) (maxWidth : ℚ) :
    List String → String → ℕ → List String
  | [], line, _ => [line]
  | w :: ws, line, n =>
    let testLine := line ++ w ++ " "
    if maxWidth < measure testLine ∧ 0 < n then
      line :: wrapLoop measure maxWidth ws (w ++ " ") (n + 1)
    else
      wrapLoop measure maxWidth ws testLine (n + 1)

/-- Caption line layout (lines 132-166): the maximum line width is 80% of
the canvas width; a caption whose measured width exceeds it is wrapped by
`wrapLoop`, otherwise it is drawn as a single unmodified line. -/
def drawMessageLines (measure : String → ℚ) (width : ℚ) (message : String) :
    List String :=
  let maxWidth := width * (8 / 10)
  let words := splitWords message
  if maxWidth < measure message then wrapLoop measure maxWidth words "" 0
  else [message]

/-- Concatenation of the drawn lines, in order. -/
def joinLines (ls : List String) : String := ls.foldr (· ++ ·) ""

/-- A sample decoded image (2:1 aspect) for concrete witnesses. -/
def sampleImage : ImageBitmap := { width := 2, height := 1 }

/-- A sample populated slot for concrete witnesses. -/
def sampleSlot : PhotoSlot :=
  { id := "slot-0", label := "Day 1", image := some sampleImage,
    x := 1 / 2, y := 14 / 100, radius := 8 / 100, isCenter := false,
    imageOffsetX := 0, imageOffsetY := 0 }

/-- C1: for every canvas target with `min(width, height) > 0`, the shared
unit-space → pixel mapping composed with its inverse — the mapping the
interaction controller's hit-testing inverts — is the identity, exactly
over ℚ (hence within floating-point tolerance in the source), for every
unit-space point, in particular every point of the content square. -/
theorem C1_unit_pixel_roundtrip (width height : ℚ) (u : ℚ × ℚ)
    (hmin : 0 < min width height) :
    pixelToUnit width height (unitToPixel width height u) = u := by
  have hc : contentSize width height ≠ 0 := by
    simpa [contentSize, scaleBase] using ne_of_gt hmin
  obtain ⟨ux, uy⟩ := u
  simp only [pixelToUnit, unitToPixel, Prod.mk.injEq]
  constructor <;> (rw [add_sub_cancel_left, mul_div_assoc, div_self hc, mul_one])

/-- Witness for C1 at the landscape preset 3200×1800 and the point
(1/4, 3/4). -/
theorem C1_unit_pixel_roundtrip_witness :
    0 < min (3200 : ℚ) 1800 ∧
      pixelToUnit 3200 1800 (unitToPixel 3200 1800 (1 / 4, 3 / 4)) =
        (1 / 4, 3 / 4) :=
  ⟨by norm_num, C1_unit_pixel_roundtrip 3200 1800 (1 / 4, 3 / 4) (by norm_num)⟩

/-- C2 counterexample: the claim asserts the dimension equal to `2r` is the
WIDTH when the aspect ratio exceeds 1. For a 2:1 image (aspect 2 > 1) in a
circle of radius 1, the renderer sets `drawWidth = 4 ≠ 2 = 2r`; it is the
height that equals `2r` there. -/
theorem C2_counterexample :
    ¬ (aspectFill 2 1 1 0 0).drawWidth = 2 * 1 := by
  norm_num [aspectFill]

/-- C2 (amended): for positive image dimensions and positive radius, the
aspect-fill rectangle fully covers the circle's bounding square — both
dimensions are at least `2r` and the rectangle is exactly centered on the
circle — and the dimension that equals exactly `2r` is the HEIGHT when the
aspect ratio `a` exceeds 1 and the WIDTH otherwise; it is the unique such
dimension except when `a = 1`, where both dimensions equal `2r`. -/
theorem C2_aspect_fill_covers (imgWidth imgHeight r cx cy : ℚ)
    (hw : 0 < imgWidth) (hh : 0 < imgHeight) (hr : 0 < r) :
    (2 * r ≤ (aspectFill imgWidth imgHeight r cx cy).drawWidth ∧
     2 * r ≤ (aspectFill imgWidth imgHeight r cx cy).drawHeight ∧
     (aspectFill imgWidth imgHeight r cx cy).offsetX =
       cx - (aspectFill imgWidth imgHeight r cx cy).drawWidth / 2 ∧
     (aspectFill imgWidth imgHeight r cx cy).offsetY =
       cy - (aspectFill imgWidth imgHeight r cx cy).drawHeight / 2) ∧
    (1 < imgWidth / imgHeight →
      (aspectFill imgWidth imgHeight r cx cy).drawHeight = 2 * r ∧
      (aspectFill imgWidth imgHeight r cx cy).drawWidth ≠ 2 * r) ∧
    (imgWidth / imgHeight ≤ 1 →
      (aspectFill imgWidth imgHeight r cx cy).drawWidth = 2 * r ∧
      (imgWidth / imgHeight < 1 →
        (aspectFill imgWidth imgHeight r cx cy).drawHeight ≠ 2 * r) ∧
      (imgWidth / imgHeight = 1 →
        (aspectFill imgWidth imgHeight r cx cy).drawHeight = 2 * r)) := by
  have ha : 0 < imgWidth / imgHeight := div_pos hw hh
  by_cases h : 1 < imgWidth / imgHeight
  · simp only [aspectFill, gt_iff_lt, if_pos h]
    refine ⟨⟨?_, by linarith, by ring_nf, by ring_nf⟩, fun _ => ⟨by ring, ?_⟩,
      fun hle => absurd h (not_lt.mpr hle)⟩
    · nlinarith
    · intro heq
      have hih : imgHeight < imgWidth := by
        rwa [lt_div_iff₀ hh, one_mul] at h
      field_simp at heq
      nlinarith [mul_pos hr (sub_pos.mpr hih)]
  · push_neg at h
    simp only [aspectFill, gt_iff_lt, if_neg (not_lt.mpr h)]
    have hrw : r * 2 / (imgWidth / imgHeight) / 2 = r / (imgWidth / imgHeight) := by
      ring
    have hle : r ≤ r * 2 / (imgWidth / imgHeight) / 2 := by
      rw [hrw, le_div_iff₀ ha]
      nlinarith
    refine ⟨⟨by linarith, ?_, by ring_nf, by ring_nf⟩,
      fun hgt => absurd hgt (not_lt.mpr h), fun _ => ⟨by ring, ?_, ?_⟩⟩
    · linarith
    · intro hlt heq
      rw [div_eq_iff (ne_of_gt ha)] at heq
      nlinarith [mul_pos hr (sub_pos.mpr hlt)]
    · intro heq1
      rw [heq1]
      ring

/-- Witness for C2 (amended) at a 2:1 image, radius 1, centered at the
origin. -/
theorem C2_aspect_fill_covers_witness :
    (0 : ℚ) < 2 ∧ (0 : ℚ) < 1 ∧
      2 * 1 ≤ (aspectFill 2 1 1 0 0).drawWidth ∧
      (aspectFill 2 1 1 0 0).drawHeight = 2 * 1 := by
  have h := C2_aspect_fill_covers 2 1 1 0 0 (by norm_num) (by norm_num) (by norm_num)
  exact ⟨by norm_num, by norm_num, h.1.1, (h.2.1 (by norm_num)).1⟩

/-- C3: the aspect-fill branches — a wider-than-square image (`a > 1`) is
drawn with height exactly `2r` and centered horizontally; an image with
`a ≤ 1` is drawn with width exactly `2r` and centered vertically — and,
end to end, a 2:1 image in a slot of unit radius 0.08 on a 3000×3000
canvas is drawn exactly 480 pixels tall before any pan offset. -/
theorem C3_aspect_fill_branches :
    (∀ imgWidth imgHeight r cx cy : ℚ, 1 < imgWidth / imgHeight →
      (aspectFill imgWidth imgHeight r cx cy).drawHeight = 2 * r ∧
      (aspectFill imgWidth imgHeight r cx cy).offsetX =
        cx - (aspectFill imgWidth imgHeight r cx cy).drawWidth / 2) ∧
    (∀ imgWidth imgHeight r cx cy : ℚ, imgWidth / imgHeight ≤ 1 →
      (aspectFill imgWidth imgHeight r cx cy).drawWidth = 2 * r ∧
      (aspectFill imgWidth imgHeight r cx cy).offsetY =
        cy - (aspectFill imgWidth imgHeight r cx cy).drawHeight / 2) ∧
    (aspectFill 2 1 ((8 / 100) * contentSize 3000 3000) 1500 1500).drawHeight
      = 480 := by
  refine ⟨fun imgWidth imgHeight r cx cy hgt => ?_,
    fun imgWidth imgHeight r cx cy hle => ?_, ?_⟩
  · simp only [aspectFill, gt_iff_lt, if_pos hgt]
    exact ⟨by ring, trivial⟩
  · simp only [aspectFill, gt_iff_lt, if_neg (not_lt.mpr hle)]
    exact ⟨by ring, trivial⟩
  · norm_num [aspectFill, contentSize, scaleBase]

/-- Witness for C3 at a 3:2 image (first branch) and a 2:3 image (second
branch), radius 5, centered at the origin. -/
theorem C3_aspect_fill_branches_witness :
    (1 < (3 : ℚ) / 2 ∧ (aspectFill 3 2 5 0 0).drawHeight = 2 * 5) ∧
    ((2 : ℚ) / 3 ≤ 1 ∧ (aspectFill 2 3 5 0 0).drawWidth = 2 * 5) :=
  ⟨⟨by norm_num, (C3_aspect_fill_branches.1 3 2 5 0 0 (by norm_num)).1⟩,
   ⟨by norm_num, (C3_aspect_fill_branches.2.1 2 3 5 0 0 (by norm_num)).1⟩⟩

/-- C4: a pointer-move delta `(dRelX, dRelY)` in display-fraction space,
while dragging a slot, increments exactly that slot's pan offset by
`(dRelX * width / contentSize, dRelY * height / contentSize)` and leaves
every other slot unchanged; on a square target the x-increment is exactly
`dRelX` (in particular `0.05` for a `0.05` fraction delta); and the
display-fraction delta itself is independent of the preview display scale:
a pointer travelling `D * 0.05` client pixels over a display of any width
`D` yields fraction delta `0.05`. -/
theorem C4_pan_delta (width height : ℚ) (slots : List PhotoSlot) (id : String)
    (dRelX dRelY : ℚ) :
    List.Forall₂ (fun s t =>
        (s.id = id →
          t.imageOffsetX = s.imageOffsetX + dRelX * width / contentSize width height ∧
          t.imageOffsetY = s.imageOffsetY + dRelY * height / contentSize width height) ∧
        (s.id ≠ id → t = s))
      slots (moveDraggedSlot width height slots id dRelX dRelY) ∧
    (width = height → width ≠ 0 → dxSlot width height (5 / 100) = 5 / 100) ∧
    (∀ D : ℚ, D ≠ 0 →
      getRelativePosX 0 D (D * (5 / 100)) - getRelativePosX 0 D 0 = 5 / 100) := by
  refine ⟨?_, ?_, ?_⟩
  · unfold moveDraggedSlot handleUpdateSlotOffset
    induction slots with
    | nil => simp
    | cons s rest ih =>
      refine List.Forall₂.cons ⟨fun hid => ?_, fun hid => ?_⟩ ih
      · simp [if_pos hid, dxSlot, dySlot, contentSize]
      · simp [if_neg hid]
  · intro hsq hne
    subst hsq
    simp [dxSlot, scaleBase, min_self]
    field_simp
    ring
  · intro D hD
    simp [getRelativePosX]
    field_simp
    ring

/-- Witness for C4 on a square 600×600 target with the sample slot. -/
theorem C4_pan_delta_witness :
    dxSlot 600 600 (5 / 100) = 5 / 100 ∧
    getRelativePosX 0 240 (240 * (5 / 100)) - getRelativePosX 0 240 0 = 5 / 100 ∧
    (moveDraggedSlot 600 600 [sampleSlot] "slot-0" (5 / 100) 0).map
      PhotoSlot.imageOffsetX = [5 / 100] := by
  have h := C4_pan_delta 600 600 [sampleSlot] "slot-0" (5 / 100) 0
  refine ⟨h.2.1 rfl (by norm_num), h.2.2 240 (by norm_num), ?_⟩
  norm_num [moveDraggedSlot, handleUpdateSlotOffset, sampleSlot, dxSlot, scaleBase]

/-- C5 counterexample: the claim requires the export never to serialize
the on-screen preview surface; for the 3000×3000 preset (and any other)
`download` reads exactly that surface — `canvasRef.current`, the canvas
element mounted for preview — so its source is not a fresh one. -/
theorem C5_counterexample :
    ¬ (download 3000 3000).source = SurfaceSource.freshCanvas := by
  decide

/-- C5 (amended): the export serializes the on-screen canvas — whose
backing store already holds the full chosen resolution `width × height`,
being only displayed scaled by CSS — as a single lossless PNG offered as a
download whose file name is determined by, and embeds, the two chosen
pixel dimensions. -/
theorem C5_download (width height : ℕ) :
    (download width height).source = SurfaceSource.previewCanvas ∧
    previewBackingStore width height = (width, height) ∧
    (download width height).mime = "image/png" ∧
    (download width height).filename =
      "first-year-collage-" ++ toString width ++ "x" ++ toString height
        ++ ".png" :=
  ⟨rfl, rfl, rfl, rfl⟩

/-- The slot scan picks exactly the first slot, in array order, whose
squared pixel distance is below its squared radius and which holds an
image. -/
theorem findSlotTarget_eq_find (width height px py : ℚ)
    (slots : List PhotoSlot) :
    findSlotTarget width height px py slots =
      (slots.find? fun s =>
        decide ((px - (paddingX width height + s.x * contentSize width height)) ^ 2 +
            (py - (paddingY width height + s.y * contentSize width height)) ^ 2 <
          (s.radius * contentSize width height) ^ 2) && s.image.isSome).map
        fun s => DragTarget.slot s.id := by
  induction slots with
  | nil => rfl
  | cons s rest ih =>
    by_cases h : (px - (paddingX width height + s.x * contentSize width height)) ^ 2 +
          (py - (paddingY width height + s.y * contentSize width height)) ^ 2 <
        (s.radius * contentSize width height) ^ 2 ∧ s.image.isSome
    · rw [findSlotTarget, if_pos h, List.find?_cons_of_pos]
      · rfl
      · simp [h.1, h.2]
    · rw [findSlotTarget, if_neg h, List.find?_cons_of_neg, ih]
      simpa [Decidable.not_and_iff_or_not] using h

/-- C6: a pointer-down position lying inside both the caption's circular
hit region (radius `0.15 * contentSize` around the caption anchor) and
some slot's circle always selects the caption as drag target: the caption
test is checked before any slot is considered. -/
theorem C6_caption_precedence (width height : ℚ) (messagePos pos : ℚ × ℚ)
    (slots : List PhotoSlot) (slot : PhotoSlot)
    (hcap : captionHit width height messagePos pos)
    (_hslot : slot ∈ slots)
    (_hin : (pos.1 * width -
        (paddingX width height + slot.x * contentSize width height)) ^ 2 +
      (pos.2 * height -
        (paddingY width height + slot.y * contentSize width height)) ^ 2 <
      (slot.radius * contentSize width height) ^ 2) :
    handleMouseDown width height messagePos slots pos =
      some DragTarget.message := by
  unfold handleMouseDown
  rw [if_pos hcap]

/-- Witness for C6 on a 3000×3000 canvas: the pointer sits on the caption
anchor, which also lies inside a large image-holding slot centered there. -/
theorem C6_caption_precedence_witness :
    captionHit 3000 3000 (1 / 2, 92 / 100) (1 / 2, 92 / 100) ∧
    handleMouseDown 3000 3000 (1 / 2, 92 / 100)
      [{ id := "big", label := "Month 1", image := some sampleImage,
         x := 1 / 2, y := 92 / 100, radius := 1 / 5, isCenter := false,
         imageOffsetX := 0, imageOffsetY := 0 }] (1 / 2, 92 / 100) =
      some DragTarget.message := by
  have hcap : captionHit 3000 3000 (1 / 2, 92 / 100) (1 / 2, 92 / 100) := by
    norm_num [captionHit, scaleBase]
  refine ⟨hcap, C6_caption_precedence 3000 3000 (1 / 2, 92 / 100)
    (1 / 2, 92 / 100) _ _ hcap (List.mem_singleton.mpr rfl) ?_⟩
  norm_num [paddingX, paddingY, contentSize, scaleBase]

/-- C9: on pointer-down with the caption missed, the selected target is
exactly the first slot in array order whose pixel distance from the
pointer is below its pixel radius AND which holds an image; and when no
slot qualifies either, no target is selected and the controller state is
left exactly as it was — hit-testing fails closed with no error state. -/
theorem C9_slot_hit_fail_closed (width height : ℚ) (messagePos pos : ℚ × ℚ)
    (slots : List PhotoSlot)
    (hcap : ¬ captionHit width height messagePos pos) :
    (handleMouseDown width height messagePos slots pos =
      (slots.find? fun s =>
        decide ((pos.1 * width -
              (paddingX width height + s.x * contentSize width height)) ^ 2 +
            (pos.2 * height -
              (paddingY width height + s.y * contentSize width height)) ^ 2 <
          (s.radius * contentSize width height) ^ 2) && s.image.isSome).map
        (fun s => DragTarget.slot s.id)) ∧
    ((∀ s ∈ slots,
        ¬ ((pos.1 * width -
              (paddingX width height + s.x * contentSize width height)) ^ 2 +
            (pos.2 * height -
              (paddingY width height + s.y * contentSize width height)) ^ 2 <
          (s.radius * contentSize width height) ^ 2 ∧ s.image.isSome)) →
      ∀ st : ControllerState,
        mouseDownStep width height messagePos slots pos st = st) := by
  have hmain : handleMouseDown width height messagePos slots pos =
      (slots.find? fun s =>
        decide ((pos.1 * width -
              (paddingX width height + s.x * contentSize width height)) ^ 2 +
            (pos.2 * height -
              (paddingY width height + s.y * contentSize width height)) ^ 2 <
          (s.radius * contentSize width height) ^ 2) && s.image.isSome).map
        (fun s => DragTarget.slot s.id) := by
    unfold handleMouseDown
    rw [if_neg hcap, findSlotTarget_eq_find]
  refine ⟨hmain, fun hnone st => ?_⟩
  have hfind : (slots.find? fun s =>
      decide ((pos.1 * width -
            (paddingX width height + s.x * contentSize width height)) ^ 2 +
          (pos.2 * height -
            (paddingY width height + s.y * contentSize width height)) ^ 2 <
        (s.radius * contentSize width height) ^ 2) && s.image.isSome) =
      none := by
    rw [List.find?_eq_none]
    intro s hs
    have := hnone s hs
    simp only [Bool.and_eq_true, decide_eq_true_eq]
    intro hcontra
    exact this ⟨hcontra.1, hcontra.2⟩
  unfold mouseDownStep
  rw [hmain, hfind]
  rfl

/-- Witness for C9 on a 3000×3000 canvas: pointer at the top-left corner,
far from the caption anchor and from the single sample slot. -/
theorem C9_slot_hit_fail_closed_witness :
    ¬ captionHit 3000 3000 (1 / 2, 92 / 100) (1 / 100, 1 / 100) ∧
    ∀ st : ControllerState,
      mouseDownStep 3000 3000 (1 / 2, 92 / 100) [sampleSlot]
        (1 / 100, 1 / 100) st = st := by
  have hcap : ¬ captionHit 3000 3000 (1 / 2, 92 / 100) (1 / 100, 1 / 100) := by
    norm_num [captionHit, scaleBase]
  refine ⟨hcap, (C9_slot_hit_fail_closed 3000 3000 (1 / 2, 92 / 100)
    (1 / 100, 1 / 100) [sampleSlot] hcap).2 ?_⟩
  intro s hs
  rw [List.mem_singleton.mp hs]
  norm_num [sampleSlot, paddingX, paddingY, contentSize, scaleBase]

/-- C7: the badge color is a pure deterministic function of the label text
alone; every label containing "Day" yields the fixed pink `#fbcfe8`; every
"Month N" label (the program's months run 1 through 11) yields entry
`N mod 4` of the fixed palette blue, green, yellow, purple; consequently
months 1, 5 and 9 share the same color, green `#bbf7d0`. -/
theorem C7_badge_color :
    (∀ l1 l2 : String, l1 = l2 → badgeColor l1 = badgeColor l2) ∧
    (∀ label : String, hasSub "Day".data label.data = true →
      badgeColor label = some "#fbcfe8") ∧
    (∀ n < 12, badgeColor ("Month " ++ toString n) =
      badgePaletteColors.get? (n % 4)) ∧
    (badgeColor "Month 1" = badgeColor "Month 5" ∧
     badgeColor "Month 5" = badgeColor "Month 9" ∧
     badgeColor "Month 1" = some "#bbf7d0") := by
  refine ⟨fun l1 l2 h => h ▸ rfl, fun label h => ?_, by decide, by decide⟩
  unfold badgeColor
  rw [if_pos h]

/-- Witness for C7 at the labels "Day 1" and "Month 5". -/
theorem C7_badge_color_witness :
    hasSub "Day".data "Day 1".data = true ∧
    badgeColor "Day 1" = some "#fbcfe8" ∧
    5 < 12 ∧
    badgeColor ("Month " ++ toString 5) = badgePaletteColors.get? (5 % 4) :=
  ⟨by decide, C7_badge_color.2.1 "Day 1" (by decide), by decide,
   C7_badge_color.2.2.1 5 (by decide)⟩

/-- C8: word-wrap is idempotent on fitting input — a caption whose
measured width does not exceed 80% of the canvas width is drawn as exactly
one line, identical to the input string, for any measuring function. -/
theorem C8_wrap_idempotent (measure : String → ℚ) (width : ℚ)
    (message : String) (hfit : measure message ≤ width * (8 / 10)) :
    drawMessageLines measure width message = [message] := by
  unfold drawMessageLines
  rw [if_neg (not_lt.mpr hfit)]

/-- Witness for C8: a caption measuring 0 on a width-100 canvas. -/
theorem C8_wrap_idempotent_witness :
    (fun _ : String => (0 : ℚ)) "Happy 1st Birthday!" ≤ 100 * (8 / 10) ∧
    drawMessageLines (fun _ : String => (0 : ℚ)) 100 "Happy 1st Birthday!" =
      ["Happy 1st Birthday!"] :=
  ⟨by norm_num, C8_wrap_idempotent (fun _ => 0) 100 "Happy 1st Birthday!"
    (by norm_num)⟩

/-- A split never produces an empty list of groups. -/
theorem splitChars_ne_nil (cs : List Char) : splitChars cs ≠ [] := by
  induction cs with
  | nil => simp [splitChars]
  | cons c cs ih =>
    simp only [splitChars]
    split
    · simp
    · split <;> simp

/-- `message.split(' ')` never returns an empty array. -/
theorem splitWords_ne_nil (message : String) : splitWords message ≠ [] := by
  simp only [splitWords, ne_eq, List.map_eq_nil_iff]
  exact splitChars_ne_nil message.data

/-- The wrapping loop conserves the text: concatenating its output lines
yields the pending `line` followed by every remaining word with a single
trailing space, in order. -/
theorem wrapLoop_join (measure : String → ℚ) (maxWidth : ℚ)
    (ws : List String) :
    ∀ (line : String) (n : ℕ),
      joinLines (wrapLoop measure maxWidth ws line n) =
        line ++ joinLines (ws.map (· ++ " ")) := by
  have hcons : ∀ (a : String) (l : List String),
      joinLines (a :: l) = a ++ joinLines l := fun a l => rfl
  induction ws with
  | nil =>
    intro line n
    simp [wrapLoop, joinLines, String.append_empty]
  | cons w ws ih =>
    intro line n
    simp only [wrapLoop]
    split
    · rw [hcons, ih]
      rfl
    · rw [ih]
      simp [hcons, String.append_assoc]

/-- Every line the wrapping loop emits ends with a space, provided the
pending line does. -/
theorem wrapLoop_trailing (measure : String → ℚ) (maxWidth : ℚ)
    (ws : List String) :
    ∀ (line : String) (n : ℕ), (∃ t, line = t ++ " ") →
      ∀ l ∈ wrapLoop measure maxWidth ws line n, ∃ t, l = t ++ " " := by
  induction ws with
  | nil =>
    intro line n hline l hl
    simp only [wrapLoop, List.mem_singleton] at hl
    exact hl ▸ hline
  | cons w ws ih =>
    intro line n hline l hl
    simp only [wrapLoop] at hl
    split at hl
    · rcases List.mem_cons.mp hl with h | h
      · exact h ▸ hline
      · exact ih (w ++ " ") (n + 1) ⟨w, rfl⟩ l h
    · exact ih (line ++ w ++ " ") (n + 1) ⟨line ++ w, rfl⟩ l hl

/-- C10: when a caption takes the multi-line wrap path, concatenating the
produced lines in order yields exactly the input's space-split word
sequence — every word once, in original order, each followed by a single
trailing space — so no word is dropped or duplicated; and every emitted
line, the last included, ends with a trailing space character. -/
theorem C10_wrap_partition (measure : String → ℚ) (width : ℚ)
    (message : String) (hwrap : width * (8 / 10) < measure message) :
    joinLines (drawMessageLines measure width message) =
      joinLines ((splitWords message).map (· ++ " ")) ∧
    ∀ l ∈ drawMessageLines measure width message, ∃ t, l = t ++ " " := by
  have hdef : drawMessageLines measure width message =
      wrapLoop measure (width * (8 / 10)) (splitWords message) "" 0 := by
    unfold drawMessageLines
    rw [if_pos hwrap]
  constructor
  · rw [hdef, wrapLoop_join]
    rw [String.empty_append]
  · rw [hdef]
    obtain ⟨w, ws, hw⟩ := List.exists_cons_of_ne_nil (splitWords_ne_nil message)
    rw [hw]
    have h0 : wrapLoop measure (width * (8 / 10)) (w :: ws) "" 0 =
        wrapLoop measure (width * (8 / 10)) ws ("" ++ w ++ " ") 1 := by
      simp only [wrapLoop]
      rw [if_neg fun h => absurd h.2 (lt_irrefl 0)]
    rw [h0]
    exact wrapLoop_trailing measure (width * (8 / 10)) ws ("" ++ w ++ " ") 1
      ⟨"" ++ w, rfl⟩

/-- Witness for C10: a three-word caption whose constant measure 100
exceeds the max line width 8 of a width-10 canvas. -/
theorem C10_wrap_partition_witness :
    (10 : ℚ) * (8 / 10) < (fun _ : String => (100 : ℚ)) "aaa bb cc" ∧
    joinLines (drawMessageLines (fun _ : String => (100 : ℚ)) 10 "aaa bb cc") =
      joinLines ((splitWords "aaa bb cc").map (· ++ " ")) := by
  have h : (10 : ℚ) * (8 / 10) < (100 : ℚ) := by norm_num
  exact ⟨h, (C10_wrap_partition (fun _ => 100) 10 "aaa bb cc" h).1⟩
